import Mathlib

/-!
Verification development for the VideoFusion black-bar removal batch tools.

Shallow embedding of `src/common/black_remove.py` (unified image+video batch,
`batch_process_media` / `main`) and `src/common/video_black_remove.py`
(video-only batch, `batch_crop_videos` / `main`).

Modelling conventions:
* A filesystem path is a list of components (`FPath`).
* The external collaborators (the detection algorithms `VideoRemover`,
  `IMGBlackRemover`, `BlackRemover`, the `cv2` probes, `ffmpeg`,
  `shutil.copy2`, `Path.stat`) are an `Env` of oracle functions; fallible
  calls return `Except String`.
* `cv2.VideoCapture(...).get(...)` never raises; on an unreadable file it
  returns 0.0, so the probe oracles are total functions into `Int`.
* Writes performed by a run are collected as a list of created paths.
  `mkdir(parents=True, exist_ok=True)` / `os.makedirs(..., exist_ok=True)`
  create exactly the missing prefixes of the directory, so they are modelled
  as conditional writes relative to the set of existing paths.
* `Path.rglob` over a nonexistent root yields nothing (pathlib checks
  `is_dir` before scanning), which the `main` models encode by replacing the
  file list with `[]` when the root does not exist.
-/

set_option autoImplicit false

abbrev FPath := List String

/-- A regular file discovered under the input root: its directory chain
relative to the root, and its final name component. -/
structure MediaFile where
  relDirs : List String
  name : String
  deriving DecidableEq, Repr

/-- Index of the last '.' in a character list, if any
(`str.rfind('.')` restricted to a found result). -/
def rfindDot : List Char → Option Nat
  | [] => none
  | c :: rest =>
    match rfindDot rest with
    | some i => some (i + 1)
    | none => if c = '.' then some 0 else none

/-- Python `pathlib` stem/suffix split of a file name: the suffix is the part
from the last dot on, provided that dot is neither the first nor the last
character; otherwise the stem is the whole name and the suffix empty. -/
def pySplitName (name : List Char) : List Char × List Char :=
  match rfindDot name with
  | some i =>
    if 0 < i ∧ i + 1 < name.length then (name.take i, name.drop i) else (name, [])
  | none => (name, [])

def videoExtensions : List (List Char) :=
  [".mp4".data, ".avi".data, ".flv".data, ".mov".data, ".mkv".data]

def imageExtensions : List (List Char) :=
  [".png".data, ".jpg".data, ".jpeg".data, ".bmp".data, ".gif".data, ".tiff".data]

inductive MediaType
  | video
  | image
  deriving DecidableEq, Repr

/-- Media classification by lower-cased extension
(`input_path.suffix.lower()` against the two extension tuples). -/
def classify (name : List Char) : Option MediaType :=
  let sfx := ((pySplitName name).2).map Char.toLower
  if sfx ∈ videoExtensions then some MediaType.video
  else if sfx ∈ imageExtensions then some MediaType.image
  else none

/-- Video-style rectangle `(x, y, w, h)` as returned by the video removers. -/
structure Rect4 where
  x : Int
  y : Int
  w : Int
  h : Int
  deriving DecidableEq, Repr

/-- Image-style rectangle `(x1, y1, x2, y2)` as returned by `BlackRemover.start`. -/
structure RectC where
  x1 : Int
  y1 : Int
  x2 : Int
  y2 : Int
  deriving DecidableEq, Repr

/-- Result of launching the external ffmpeg process. -/
inductive FfmpegRun
  | success
  | nonzeroExit
  | missingExe
  deriving DecidableEq, Repr

/-- Oracles for the external collaborators of both batch scripts. -/
structure Env where
  removeBlackDynamic : FPath → Except String Rect4
  removeBlackStatic : FPath → Nat → Except String Rect4
  imgDetect : FPath → Except String RectC
  videoCaptureWidth : FPath → Int
  videoCaptureHeight : FPath → Int
  imreadDims : FPath → Option (Int × Int)
  ffmpeg : FPath → FPath → Rect4 → FfmpegRun
  copy2 : FPath → FPath → Except String Unit
  statSize : FPath → Int

/-- The read-only configuration of one batch invocation. -/
structure BatchConfig where
  inputRoot : FPath
  outputRoot : FPath
  cropEnabled : Bool
  videoAlgorithm : String
  maxFrames : Nat
  deriving DecidableEq, Repr

/-- Per-file outcome of the orchestrator. An exception caught at the
per-file boundary, and an ffmpeg failure swallowed inside `crop_video`,
are both recorded as `failed` (the script only logs them and moves on). -/
inductive Outcome
  | copied
  | cropped
  | skippedExisting
  | skippedUnsupported
  | failed (reason : String)
  deriving DecidableEq, Repr

/-- Full path of a discovered input file. -/
def inputPath (cfg : BatchConfig) (f : MediaFile) : FPath :=
  cfg.inputRoot ++ f.relDirs ++ [f.name]

/-- `p.relative_to(root)` for a `p` produced by `root.rglob(...)`. -/
def relative_to (root p : FPath) : FPath :=
  p.drop root.length

/-- Output target path: `<outputRoot>/<relativeDir>/<stem>_noblack<ext>`. -/
def targetFile (cfg : BatchConfig) (f : MediaFile) : FPath :=
  let rel := relative_to cfg.inputRoot (inputPath cfg f)
  let nm := (rel.getLastD "").data
  cfg.outputRoot ++ rel.dropLast ++
    [String.mk ((pySplitName nm).1 ++ "_noblack".data ++ (pySplitName nm).2)]

/-- All nonempty initial segments of a path (the directory and its ancestors). -/
def pathAncestors (p : FPath) : List FPath :=
  (List.range p.length).map fun i => p.take (i + 1)

/-- Writes performed by `mkdir(parents=True, exist_ok=True)` given the set of
already-existing paths: the missing initial segments of the directory. -/
def mkdirParents (s : List FPath) (p : FPath) : List FPath :=
  (pathAncestors p).filter fun q => decide (q ∉ s)

/-- `get_remover`: selection of the detection strategy. -/
inductive Remover
  | videoDynamic
  | videoStatic
  | imageStatic
  deriving DecidableEq, Repr

def get_remover (media_type : MediaType) (algorithm : String) : Except String Remover :=
  match media_type with
  | MediaType.video =>
    if algorithm = "dynamic" then Except.ok Remover.videoDynamic
    else if algorithm = "static" then Except.ok Remover.videoStatic
    else Except.error ("unsupported video algorithm: " ++ algorithm)
  | MediaType.image => Except.ok Remover.imageStatic

/-- `crop_video` of `black_remove.py`: validates the rectangle, then runs
ffmpeg; a process failure is caught inside and only logged (no exception),
so it yields a `failed` outcome with no write rather than an error. -/
def crop_video (env : Env) (inp outp : FPath) (rect : Rect4) :
    Except String (Outcome × List FPath) :=
  if rect.w ≤ 0 ∨ rect.h ≤ 0 then
    Except.error "invalid crop parameters"
  else
    match env.ffmpeg inp outp rect with
    | FfmpegRun.success => Except.ok (Outcome.cropped, [outp])
    | FfmpegRun.nonzeroExit => Except.ok (Outcome.failed "ffmpeg nonzero exit", [])
    | FfmpegRun.missingExe => Except.ok (Outcome.failed "ffmpeg not found", [])

/-- `crop_image` of `black_remove.py`: validates the corner rectangle, reads
the image (may fail), creates the parent directory and writes the crop. -/
def crop_image (env : Env) (s : List FPath) (inp outp : FPath) (rect : RectC) :
    Except String (Outcome × List FPath) :=
  if rect.x2 - rect.x1 ≤ 0 ∨ rect.y2 - rect.y1 ≤ 0 then
    Except.error "invalid crop parameters"
  else
    match env.imreadDims inp with
    | none => Except.error "cannot read image"
    | some _ => Except.ok (Outcome.cropped, mkdirParents s outp.dropLast ++ [outp])

/-- The copy branch (`not crop_enabled or not has_black`): create the parent
directory, then `shutil.copy2`; a copy failure is caught at the per-file
boundary, but the directory writes have already happened. -/
def copyStep (env : Env) (s : List FPath) (inp outp : FPath) : Outcome × List FPath :=
  let dirW := mkdirParents s outp.dropLast
  match env.copy2 inp outp with
  | Except.ok _ => (Outcome.copied, dirW ++ [outp])
  | Except.error e => (Outcome.failed ("copy failed: " ++ e), dirW)

/-- Body of the per-file `try` block for a video file in
`batch_process_media`: strategy selection, detection, probing of the native
dimensions, the has-black-bars decision, then copy or crop. -/
def processVideo (env : Env) (cfg : BatchConfig) (s : List FPath) (inp outp : FPath) :
    Outcome × List FPath :=
  match get_remover MediaType.video cfg.videoAlgorithm with
  | Except.error e => (Outcome.failed e, [])
  | Except.ok _ =>
    let rectE :=
      if cfg.videoAlgorithm = "static" then env.removeBlackStatic inp cfg.maxFrames
      else env.removeBlackDynamic inp
    match rectE with
    | Except.error e => (Outcome.failed e, [])
    | Except.ok rect =>
      let ow := env.videoCaptureWidth inp
      let oh := env.videoCaptureHeight inp
      if cfg.cropEnabled = false ∨ (rect.w = ow ∧ rect.h = oh) then
        copyStep env s inp outp
      else
        match crop_video env inp outp rect with
        | Except.ok r => r
        | Except.error e => (Outcome.failed e, [])

/-- Body of the per-file `try` block for an image file in
`batch_process_media`. -/
def processImage (env : Env) (cfg : BatchConfig) (s : List FPath) (inp outp : FPath) :
    Outcome × List FPath :=
  match get_remover MediaType.image cfg.videoAlgorithm with
  | Except.error e => (Outcome.failed e, [])
  | Except.ok _ =>
    match env.imgDetect inp with
    | Except.error e => (Outcome.failed e, [])
    | Except.ok rect =>
      match env.imreadDims inp with
      | none => (Outcome.failed "cannot read image shape", [])
      | some dims =>
        if cfg.cropEnabled = false ∨
            (rect.x1 = 0 ∧ rect.y1 = 0 ∧ rect.x2 = dims.2 ∧ rect.y2 = dims.1) then
          copyStep env s inp outp
        else
          match crop_image env s inp outp rect with
          | Except.ok r => r
          | Except.error e => (Outcome.failed e, [])

/-- One loop iteration of `batch_process_media`: classification, target
resolution, skip-existing, then the per-file `try` block whose exceptions
all become a `failed` outcome. -/
def processFile (env : Env) (cfg : BatchConfig) (s : List FPath) (f : MediaFile) :
    Outcome × List FPath :=
  match classify f.name.data with
  | none => (Outcome.skippedUnsupported, [])
  | some mt =>
    let outp := targetFile cfg f
    if outp ∈ s then (Outcome.skippedExisting, [])
    else
      match mt with
      | MediaType.video => processVideo env cfg s (inputPath cfg f) outp
      | MediaType.image => processImage env cfg s (inputPath cfg f) outp

/-- The traversal loop of `batch_process_media`, threading the set of
existing paths through the writes of earlier files. -/
def batchGo (env : Env) (cfg : BatchConfig) :
    List FPath → List MediaFile → List (MediaFile × Outcome) × List FPath
  | _, [] => ([], [])
  | s, f :: fs =>
    let r := processFile env cfg s f
    let rest := batchGo env cfg (s ++ r.2) fs
    ((f, r.1) :: rest.1, r.2 ++ rest.2)

/-- `batch_process_media`: creates the output root, then processes every
discovered file; total — no per-file error escapes. Returns the per-file
outcomes and the list of paths written, given the initially existing paths. -/
def batch_process_media (env : Env) (cfg : BatchConfig) (s : List FPath)
    (files : List MediaFile) : List (MediaFile × Outcome) × List FPath :=
  let w0 := mkdirParents s cfg.outputRoot
  let r := batchGo env cfg (s ++ w0) files
  (r.1, w0 ++ r.2)

/-- `crop_video` of `video_black_remove.py`: same ffmpeg invocation but with
no rectangle validation at all; process failures are swallowed and logged. -/
def crop_videoV (env : Env) (inp outp : FPath) (rect : Rect4) : Outcome × List FPath :=
  match env.ffmpeg inp outp rect with
  | FfmpegRun.success => (Outcome.cropped, [outp])
  | FfmpegRun.nonzeroExit => (Outcome.failed "ffmpeg nonzero exit", [])
  | FfmpegRun.missingExe => (Outcome.failed "ffmpeg not found", [])

/-- One loop iteration of `batch_crop_videos`. There is NO per-file
`try`/`except` here: a detection or copy exception propagates out of the
loop (hence the `Except` result). The no-bars test compares the rectangle
width and height against `input_path.stat().st_size` (the file size in
bytes), and a degenerate rectangle is skipped as a corrupt video. -/
def processFileV (env : Env) (cfg : BatchConfig) (s : List FPath) (f : MediaFile) :
    Except String (Outcome × List FPath) :=
  if ((pySplitName f.name.data).2).map Char.toLower ∈ videoExtensions then
    let inp := inputPath cfg f
    let outp := targetFile cfg f
    if outp ∈ s then Except.ok (Outcome.skippedExisting, [])
    else
      match env.removeBlackDynamic inp with
      | Except.error e => Except.error e
      | Except.ok rect =>
        if rect.w ≤ 0 ∨ rect.h ≤ 0 then
          Except.ok (Outcome.failed "corrupt video skipped", [])
        else if rect.w = env.statSize inp ∧ rect.h = env.statSize inp then
          let dirW := mkdirParents s outp.dropLast
          match env.copy2 inp outp with
          | Except.ok _ => Except.ok (Outcome.copied, dirW ++ [outp])
          | Except.error e => Except.error e
        else
          let dirW := mkdirParents s outp.dropLast
          let r := crop_videoV env inp outp rect
          Except.ok (r.1, dirW ++ r.2)
  else Except.ok (Outcome.skippedUnsupported, [])

/-- The traversal loop of `batch_crop_videos`: an error at any file aborts
the whole traversal. -/
def batchCropGo (env : Env) (cfg : BatchConfig) :
    List FPath → List MediaFile → Except String (List (MediaFile × Outcome) × List FPath)
  | _, [] => Except.ok ([], [])
  | s, f :: fs =>
    match processFileV env cfg s f with
    | Except.error e => Except.error e
    | Except.ok r =>
      match batchCropGo env cfg (s ++ r.2) fs with
      | Except.error e => Except.error e
      | Except.ok rest => Except.ok ((f, r.1) :: rest.1, r.2 ++ rest.2)

/-- `batch_crop_videos` of `video_black_remove.py`. -/
def batch_crop_videos (env : Env) (cfg : BatchConfig) (s : List FPath)
    (files : List MediaFile) : Except String (List (MediaFile × Outcome) × List FPath) :=
  let w0 := mkdirParents s cfg.outputRoot
  match batchCropGo env cfg (s ++ w0) files with
  | Except.error e => Except.error e
  | Except.ok r => Except.ok (r.1, w0 ++ r.2)

/-- Observable facts about one CLI invocation that `main` branches on. -/
structure CliInput where
  argvOk : Bool
  configFileExists : Bool
  configParses : Bool
  mediaPathPresent : Bool
  rootExists : Bool
  rootFiles : List MediaFile
  resultWriteOk : Bool

/-- The `try` body of `main` in `black_remove.py`: arity check, existence
check of the input CONFIG file (not of the media root), JSON parse, media
path extraction, then the batch. A nonexistent media root is not checked
anywhere: `rglob` over it simply yields no files. -/
def runUnified (env : Env) (cfg : BatchConfig) (inp : CliInput) (s : List FPath) :
    Except String (List (MediaFile × Outcome) × List FPath) :=
  if inp.argvOk = false then
    Except.error "usage: python black_remove.py <input_file> <output_file>"
  else if inp.configFileExists = false then
    Except.error "input file does not exist"
  else if inp.configParses = false then
    Except.error "invalid JSON in input file"
  else if inp.mediaPathPresent = false then
    Except.error "TypeError: expected str, bytes or os.PathLike, not NoneType"
  else
    Except.ok (batch_process_media env cfg s
      (if inp.rootExists then inp.rootFiles else []))

/-- The structured result document plus exit behavior of `main`. -/
structure JobResult where
  success : Bool
  videoPath : Option FPath
  errorField : Option String
  outcomes : List (MediaFile × Outcome)
  writes : List FPath
  resultWritten : Bool
  exitCode : Nat
  deriving Repr

/-- `main` of `black_remove.py`: runs the body, fills the result document,
attempts to write it in the `finally` block (a write failure forces exit 1),
and otherwise exits 0 iff `success`. -/
def mainModel (env : Env) (cfg : BatchConfig) (inp : CliInput) (s : List FPath) :
    JobResult :=
  match runUnified env cfg inp s with
  | Except.ok r =>
    if inp.resultWriteOk then
      { success := true, videoPath := some cfg.outputRoot, errorField := none,
        outcomes := r.1, writes := r.2, resultWritten := true, exitCode := 0 }
    else
      { success := true, videoPath := some cfg.outputRoot, errorField := none,
        outcomes := r.1, writes := r.2, resultWritten := false, exitCode := 1 }
  | Except.error e =>
    if inp.resultWriteOk then
      { success := false, videoPath := none, errorField := some e,
        outcomes := [], writes := [], resultWritten := true, exitCode := 1 }
    else
      { success := false, videoPath := none, errorField := some e,
        outcomes := [], writes := [], resultWritten := false, exitCode := 1 }

/-- The `try` body of `main` in `video_black_remove.py`: unlike the unified
script, the batch itself can raise (no per-file isolation), which lands in
the outer `except` and flips `success` to false. -/
def runVideoOnly (env : Env) (cfg : BatchConfig) (inp : CliInput) (s : List FPath) :
    Except String (List (MediaFile × Outcome) × List FPath) :=
  if inp.argvOk = false then
    Except.error "usage: python video_black_remover.py <input_file> <output_file>"
  else if inp.configFileExists = false then
    Except.error "input file does not exist"
  else if inp.configParses = false then
    Except.error "invalid JSON in input file"
  else if inp.mediaPathPresent = false then
    Except.error "KeyError: missing video_path"
  else
    batch_crop_videos env cfg s (if inp.rootExists then inp.rootFiles else [])

/-- `main` of `video_black_remove.py`. -/
def mainModelV (env : Env) (cfg : BatchConfig) (inp : CliInput) (s : List FPath) :
    JobResult :=
  match runVideoOnly env cfg inp s with
  | Except.ok r =>
    if inp.resultWriteOk then
      { success := true, videoPath := some cfg.outputRoot, errorField := none,
        outcomes := r.1, writes := r.2, resultWritten := true, exitCode := 0 }
    else
      { success := true, videoPath := some cfg.outputRoot, errorField := none,
        outcomes := r.1, writes := r.2, resultWritten := false, exitCode := 1 }
  | Except.error e =>
    if inp.resultWriteOk then
      { success := false, videoPath := none, errorField := some e,
        outcomes := [], writes := [], resultWritten := true, exitCode := 1 }
    else
      { success := false, videoPath := none, errorField := some e,
        outcomes := [], writes := [], resultWritten := false, exitCode := 1 }

/-- `root` is an initial segment of `p` (so `p` lies at or under `root`). -/
def isUnder (root p : FPath) : Prop :=
  p.take root.length = root

instance (root p : FPath) : Decidable (isUnder root p) := by
  unfold isUnder; infer_instance

/-! ### Concrete fixtures used by witnesses and counterexamples -/

/-- An environment in which every collaborator succeeds and every probe
reports a 100×100 full frame matching the detected rectangle. -/
def envConst : Env where
  removeBlackDynamic := fun _ => Except.ok ⟨0, 0, 100, 100⟩
  removeBlackStatic := fun _ _ => Except.ok ⟨0, 0, 100, 100⟩
  imgDetect := fun _ => Except.ok ⟨0, 0, 100, 100⟩
  videoCaptureWidth := fun _ => 100
  videoCaptureHeight := fun _ => 100
  imreadDims := fun _ => some (100, 100)
  ffmpeg := fun _ _ _ => FfmpegRun.success
  copy2 := fun _ _ => Except.ok ()
  statSize := fun _ => 999999

/-- An environment in which every detection call raises. -/
def envBoom : Env where
  removeBlackDynamic := fun _ => Except.error "boom"
  removeBlackStatic := fun _ _ => Except.error "boom"
  imgDetect := fun _ => Except.error "boom"
  videoCaptureWidth := fun _ => 100
  videoCaptureHeight := fun _ => 100
  imreadDims := fun _ => some (100, 100)
  ffmpeg := fun _ _ _ => FfmpegRun.success
  copy2 := fun _ _ => Except.ok ()
  statSize := fun _ => 999999

/-- The configuration of the spec's naming example: input root `clips`,
output root `out`. -/
def cfgEx : BatchConfig where
  inputRoot := ["clips"]
  outputRoot := ["out"]
  cropEnabled := true
  videoAlgorithm := "dynamic"
  maxFrames := 500

/-! ### Name-splitting lemmas -/

theorem rfindDot_eq_none {l : List Char} (h : '.' ∉ l) : rfindDot l = none := by
  induction l with
  | nil => rfl
  | cons c rest ih =>
    have hc : c ≠ '.' := fun hc => h (hc ▸ List.mem_cons_self c rest)
    have hr : '.' ∉ rest := fun hr => h (List.mem_cons_of_mem c hr)
    simp [rfindDot, ih hr, hc]

theorem rfindDot_concat_ext {stem tail : List Char} (h : '.' ∉ tail) :
    rfindDot (stem ++ '.' :: tail) = some stem.length := by
  induction stem with
  | nil => simp [rfindDot, rfindDot_eq_none h]
  | cons c cs ih => simp [rfindDot, ih]

theorem pySplitName_concat_ext {stem tail : List Char} (hs : stem ≠ [])
    (ht : tail ≠ []) (h : '.' ∉ tail) :
    pySplitName (stem ++ '.' :: tail) = (stem, '.' :: tail) := by
  have hlen : 0 < stem.length := List.length_pos.mpr hs
  have htlen : 0 < tail.length := List.length_pos.mpr ht
  have hcond : 0 < stem.length ∧ stem.length + 1 < (stem ++ '.' :: tail).length := by
    constructor
    · exact hlen
    · simp only [List.length_append, List.length_cons]
      omega
  rw [pySplitName, rfindDot_concat_ext h]
  dsimp only
  rw [if_pos hcond, List.take_left stem ('.' :: tail), List.drop_left stem ('.' :: tail)]

theorem relative_to_inputPath (cfg : BatchConfig) (f : MediaFile) :
    relative_to cfg.inputRoot (inputPath cfg f) = f.relDirs ++ [f.name] := by
  unfold relative_to inputPath
  rw [List.append_assoc, List.drop_left]

theorem targetFile_eq (cfg : BatchConfig) (f : MediaFile) :
    targetFile cfg f = cfg.outputRoot ++ f.relDirs ++
      [String.mk ((pySplitName f.name.data).1 ++ "_noblack".data ++
        (pySplitName f.name.data).2)] := by
  unfold targetFile
  rw [relative_to_inputPath]
  simp [List.append_assoc]

/-- C5: the resolved target path is the output root, then the file's relative
directory under the input root, then the stem suffixed with `_noblack` with
the original extension preserved. (`stem`/`tail` range over an arbitrary
dotted file name `<stem>.<tail>`.) -/
theorem c5_output_naming (cfg : BatchConfig) (dirs : List String)
    (stem tail : List Char) (hs : stem ≠ []) (ht : tail ≠ []) (hd : '.' ∉ tail) :
    targetFile cfg ⟨dirs, String.mk (stem ++ '.' :: tail)⟩ =
      cfg.outputRoot ++ dirs ++
        [String.mk (stem ++ "_noblack".data ++ '.' :: tail)] := by
  rw [targetFile_eq]
  show cfg.outputRoot ++ dirs ++
      [String.mk ((pySplitName (stem ++ '.' :: tail)).1 ++ "_noblack".data ++
        (pySplitName (stem ++ '.' :: tail)).2)] = _
  rw [pySplitName_concat_ext hs ht hd]

/-- Witness for C5: the spec's own example, input `clips/a/b.mp4` under root
`clips` with output root `out` maps to `out/a/b_noblack.mp4`. -/
theorem c5_output_naming_w :
    targetFile cfgEx ⟨["a"], String.mk (['b'] ++ '.' :: ['m', 'p', '4'])⟩ =
      cfgEx.outputRoot ++ ["a"] ++
        [String.mk (['b'] ++ "_noblack".data ++ '.' :: ['m', 'p', '4'])] :=
  c5_output_naming cfgEx ["a"] ['b'] ['m', 'p', '4']
    (by decide) (by decide) (by decide)

/-- C9: the process exit status is 0 iff the result document's success field
is true and the result write succeeded; a failed result write forces exit 1
even on success; the result document write is attempted on both the success
and the failure path (it lands whenever the write itself succeeds). Both
entry points (`black_remove.py` and `video_black_remove.py`) satisfy this. -/
theorem c9_exit_code_contract (env : Env) (cfg : BatchConfig) (inp : CliInput)
    (s : List FPath) :
    ((mainModel env cfg inp s).exitCode = 0 ↔
      (mainModel env cfg inp s).success = true ∧ inp.resultWriteOk = true) ∧
    (mainModel env cfg inp s).resultWritten = inp.resultWriteOk ∧
    ((mainModelV env cfg inp s).exitCode = 0 ↔
      (mainModelV env cfg inp s).success = true ∧ inp.resultWriteOk = true) ∧
    (mainModelV env cfg inp s).resultWritten = inp.resultWriteOk := by
  unfold mainModel mainModelV
  cases h1 : runUnified env cfg inp s <;>
    cases h2 : runVideoOnly env cfg inp s <;>
      cases h3 : inp.resultWriteOk <;> simp

/-! ### Write-tracking lemmas -/

theorem mkdirParents_not_mem {s : List FPath} {p q : FPath}
    (h : q ∈ mkdirParents s p) : q ∉ s := by
  unfold mkdirParents at h
  have := List.mem_filter.mp h
  simpa using this.2

theorem mkdirParents_mem_ancestors {s : List FPath} {p q : FPath}
    (h : q ∈ mkdirParents s p) : q ∈ pathAncestors p := by
  unfold mkdirParents at h
  exact (List.mem_filter.mp h).1

theorem mkdirParents_stable {s s' : List FPath} {p : FPath}
    (hsub : ∀ w ∈ s, w ∈ s')
    (h : ∀ q ∈ mkdirParents s p, q ∈ s') :
    mkdirParents s' p = [] := by
  unfold mkdirParents
  rw [List.filter_eq_nil_iff]
  intro q hq
  simp only [decide_eq_true_eq, not_not]
  by_cases hqs : q ∈ s
  · exact hsub q hqs
  · refine h q ?_
    unfold mkdirParents
    rw [List.mem_filter]
    exact ⟨hq, by simpa using hqs⟩

theorem copyStep_writes_not_mem {env : Env} {s : List FPath} {inp outp w : FPath}
    (hout : outp ∉ s) (hw : w ∈ (copyStep env s inp outp).2) : w ∉ s := by
  unfold copyStep at hw
  cases hc : env.copy2 inp outp with
  | ok u =>
    rw [hc] at hw
    simp only [List.mem_append, List.mem_singleton] at hw
    rcases hw with hw | hw
    · exact mkdirParents_not_mem hw
    · exact hw ▸ hout
  | error e =>
    rw [hc] at hw
    exact mkdirParents_not_mem hw

theorem copyStep_stable {env : Env} {s s' : List FPath} {inp outp : FPath}
    (hsub : ∀ w ∈ s, w ∈ s')
    (hws : ∀ w ∈ (copyStep env s inp outp).2, w ∈ s')
    (hout : outp ∉ s') :
    (copyStep env s' inp outp).2 = [] := by
  unfold copyStep at hws ⊢
  cases hc : env.copy2 inp outp with
  | ok u =>
    rw [hc] at hws
    exact absurd (hws outp (by simp)) hout
  | error e =>
    rw [hc] at hws
    dsimp only at hws ⊢
    exact mkdirParents_stable hsub hws

theorem processVideo_writes_not_mem {env : Env} {cfg : BatchConfig}
    {s : List FPath} {inp outp w : FPath} (hout : outp ∉ s)
    (hw : w ∈ (processVideo env cfg s inp outp).2) : w ∉ s := by
  unfold processVideo at hw
  cases hgr : get_remover MediaType.video cfg.videoAlgorithm with
  | error e => rw [hgr] at hw; simp at hw
  | ok r =>
    rw [hgr] at hw
    dsimp only at hw
    cases hre : (if cfg.videoAlgorithm = "static"
        then env.removeBlackStatic inp cfg.maxFrames
        else env.removeBlackDynamic inp) with
    | error e => rw [hre] at hw; simp at hw
    | ok rect =>
      rw [hre] at hw
      dsimp only at hw
      by_cases hbc : cfg.cropEnabled = false ∨
          (rect.w = env.videoCaptureWidth inp ∧ rect.h = env.videoCaptureHeight inp)
      · rw [if_pos hbc] at hw
        exact copyStep_writes_not_mem hout hw
      · rw [if_neg hbc] at hw
        unfold crop_video at hw
        by_cases hdg : rect.w ≤ 0 ∨ rect.h ≤ 0
        · rw [if_pos hdg] at hw; simp at hw
        · rw [if_neg hdg] at hw
          cases hff : env.ffmpeg inp outp rect with
          | success =>
            rw [hff] at hw
            simp only [List.mem_singleton] at hw
            exact hw ▸ hout
          | nonzeroExit => rw [hff] at hw; simp at hw
          | missingExe => rw [hff] at hw; simp at hw

theorem processImage_writes_not_mem {env : Env} {cfg : BatchConfig}
    {s : List FPath} {inp outp w : FPath} (hout : outp ∉ s)
    (hw : w ∈ (processImage env cfg s inp outp).2) : w ∉ s := by
  unfold processImage at hw
  dsimp only [get_remover] at hw
  cases hd : env.imgDetect inp with
  | error e => rw [hd] at hw; simp at hw
  | ok rect =>
    rw [hd] at hw
    dsimp only at hw
    cases hri : env.imreadDims inp with
    | none => rw [hri] at hw; simp at hw
    | some dims =>
      rw [hri] at hw
      dsimp only at hw
      by_cases hbc : cfg.cropEnabled = false ∨
          (rect.x1 = 0 ∧ rect.y1 = 0 ∧ rect.x2 = dims.2 ∧ rect.y2 = dims.1)
      · rw [if_pos hbc] at hw
        exact copyStep_writes_not_mem hout hw
      · rw [if_neg hbc] at hw
        unfold crop_image at hw
        by_cases hdg : rect.x2 - rect.x1 ≤ 0 ∨ rect.y2 - rect.y1 ≤ 0
        · rw [if_pos hdg] at hw; simp at hw
        · rw [if_neg hdg] at hw
          rw [hri] at hw
          dsimp only at hw
          simp only [List.mem_append, List.mem_singleton] at hw
          rcases hw with hw | hw
          · exact mkdirParents_not_mem hw
          · exact hw ▸ hout

theorem processFile_writes_not_mem {env : Env} {cfg : BatchConfig}
    {s : List FPath} {f : MediaFile} {w : FPath}
    (hw : w ∈ (processFile env cfg s f).2) : w ∉ s := by
  unfold processFile at hw
  cases hcl : classify f.name.data with
  | none => rw [hcl] at hw; simp at hw
  | some mt =>
    rw [hcl] at hw
    dsimp only at hw
    by_cases hmem : targetFile cfg f ∈ s
    · rw [if_pos hmem] at hw; simp at hw
    · rw [if_neg hmem] at hw
      cases mt with
      | video => exact processVideo_writes_not_mem hmem hw
      | image => exact processImage_writes_not_mem hmem hw

theorem processVideo_stable {env : Env} {cfg : BatchConfig}
    {s s' : List FPath} {inp outp : FPath}
    (hsub : ∀ w ∈ s, w ∈ s')
    (hws : ∀ w ∈ (processVideo env cfg s inp outp).2, w ∈ s')
    (hout : outp ∉ s') :
    (processVideo env cfg s' inp outp).2 = [] := by
  unfold processVideo at hws ⊢
  cases hgr : get_remover MediaType.video cfg.videoAlgorithm with
  | error e => rfl
  | ok r =>
    rw [hgr] at hws
    dsimp only at hws ⊢
    cases hre : (if cfg.videoAlgorithm = "static"
        then env.removeBlackStatic inp cfg.maxFrames
        else env.removeBlackDynamic inp) with
    | error e => rfl
    | ok rect =>
      rw [hre] at hws
      dsimp only at hws ⊢
      by_cases hbc : cfg.cropEnabled = false ∨
          (rect.w = env.videoCaptureWidth inp ∧ rect.h = env.videoCaptureHeight inp)
      · rw [if_pos hbc] at hws ⊢
        exact copyStep_stable hsub hws hout
      · rw [if_neg hbc] at hws ⊢
        unfold crop_video at hws ⊢
        by_cases hdg : rect.w ≤ 0 ∨ rect.h ≤ 0
        · rw [if_pos hdg] at hws ⊢
        · rw [if_neg hdg] at hws ⊢
          cases hff : env.ffmpeg inp outp rect with
          | success =>
            rw [hff] at hws
            exact absurd (hws outp (by simp)) hout
          | nonzeroExit => rfl
          | missingExe => rfl

theorem processImage_stable {env : Env} {cfg : BatchConfig}
    {s s' : List FPath} {inp outp : FPath}
    (hsub : ∀ w ∈ s, w ∈ s')
    (hws : ∀ w ∈ (processImage env cfg s inp outp).2, w ∈ s')
    (hout : outp ∉ s') :
    (processImage env cfg s' inp outp).2 = [] := by
  unfold processImage at hws ⊢
  dsimp only [get_remover] at hws ⊢
  cases hd : env.imgDetect inp with
  | error e => rfl
  | ok rect =>
    rw [hd] at hws
    dsimp only at hws ⊢
    cases hri : env.imreadDims inp with
    | none => rfl
    | some dims =>
      rw [hri] at hws
      dsimp only at hws ⊢
      by_cases hbc : cfg.cropEnabled = false ∨
          (rect.x1 = 0 ∧ rect.y1 = 0 ∧ rect.x2 = dims.2 ∧ rect.y2 = dims.1)
      · rw [if_pos hbc] at hws ⊢
        exact copyStep_stable hsub hws hout
      · rw [if_neg hbc] at hws ⊢
        unfold crop_image at hws ⊢
        by_cases hdg : rect.x2 - rect.x1 ≤ 0 ∨ rect.y2 - rect.y1 ≤ 0
        · rw [if_pos hdg] at hws ⊢
        · rw [if_neg hdg] at hws ⊢
          rw [hri] at hws
          dsimp only at hws ⊢
          exact absurd (hws outp (by simp)) hout

theorem processFile_stable {env : Env} {cfg : BatchConfig}
    {s s' : List FPath} {f : MediaFile}
    (hsub : ∀ w ∈ s, w ∈ s')
    (hws : ∀ w ∈ (processFile env cfg s f).2, w ∈ s') :
    (processFile env cfg s' f).2 = [] := by
  unfold processFile at hws ⊢
  cases hcl : classify f.name.data with
  | none => rfl
  | some mt =>
    rw [hcl] at hws
    dsimp only at hws ⊢
    by_cases hmem' : targetFile cfg f ∈ s'
    · rw [if_pos hmem']
    · rw [if_neg hmem']
      have hmem : targetFile cfg f ∉ s := fun h => hmem' (hsub _ h)
      rw [if_neg hmem] at hws
      cases mt with
      | video => exact processVideo_stable hsub hws hmem'
      | image => exact processImage_stable hsub hws hmem'

theorem batchGo_nil (env : Env) (cfg : BatchConfig) (s : List FPath) :
    batchGo env cfg s [] = ([], []) := rfl

theorem batchGo_cons (env : Env) (cfg : BatchConfig) (s : List FPath)
    (f : MediaFile) (fs : List MediaFile) :
    batchGo env cfg s (f :: fs) =
      ((f, (processFile env cfg s f).1) ::
          (batchGo env cfg (s ++ (processFile env cfg s f).2) fs).1,
        (processFile env cfg s f).2 ++
          (batchGo env cfg (s ++ (processFile env cfg s f).2) fs).2) := rfl

theorem batchGo_length (env : Env) (cfg : BatchConfig) :
    ∀ (files : List MediaFile) (s : List FPath),
      (batchGo env cfg s files).1.length = files.length := by
  intro files
  induction files with
  | nil => intro s; rfl
  | cons f fs ih =>
    intro s
    rw [batchGo_cons]
    simp [ih]

theorem batchGo_writes_not_mem (env : Env) (cfg : BatchConfig) :
    ∀ (files : List MediaFile) (s : List FPath) (w : FPath),
      w ∈ (batchGo env cfg s files).2 → w ∉ s := by
  intro files
  induction files with
  | nil => intro s w hw; simp [batchGo_nil] at hw
  | cons f fs ih =>
    intro s w hw
    rw [batchGo_cons] at hw
    simp only [List.mem_append] at hw
    rcases hw with hw | hw
    · exact processFile_writes_not_mem hw
    · intro hws
      exact ih _ w hw (by simp [hws])

theorem batchGo_stable (env : Env) (cfg : BatchConfig) :
    ∀ (files : List MediaFile) (s s' : List FPath),
      (∀ w ∈ s, w ∈ s') →
      (∀ w ∈ (batchGo env cfg s files).2, w ∈ s') →
      (batchGo env cfg s' files).2 = [] := by
  intro files
  induction files with
  | nil => intro s s' _ _; rfl
  | cons f fs ih =>
    intro s s' hsub hws
    rw [batchGo_cons] at hws
    simp only [List.mem_append] at hws
    have h1 : ∀ w ∈ (processFile env cfg s f).2, w ∈ s' :=
      fun w hw => hws w (Or.inl hw)
    have hpf : (processFile env cfg s' f).2 = [] := processFile_stable hsub h1
    rw [batchGo_cons, hpf]
    simp only [List.append_nil, List.nil_append]
    refine ih (s ++ (processFile env cfg s f).2) s' ?_ ?_
    · intro w hw
      rcases List.mem_append.mp hw with hw | hw
      · exact hsub w hw
      · exact h1 w hw
    · intro w hw
      exact hws w (Or.inr hw)

/-- The second run of `batch_process_media` from the post-state of a first
run performs no writes at all. -/
theorem batch_rerun_no_writes (env : Env) (cfg : BatchConfig) (s : List FPath)
    (files : List MediaFile) :
    (batch_process_media env cfg
      (s ++ (batch_process_media env cfg s files).2) files).2 = [] := by
  unfold batch_process_media
  dsimp only
  have h0 : mkdirParents
      (s ++ (mkdirParents s cfg.outputRoot ++
        (batchGo env cfg (s ++ mkdirParents s cfg.outputRoot) files).2))
      cfg.outputRoot = [] := by
    refine @mkdirParents_stable s _ _ (fun w hw => ?_) (fun q hq => ?_)
    · simp [hw]
    · simp [hq]
  rw [h0]
  simp only [List.append_nil, List.nil_append]
  refine batchGo_stable env cfg files (s ++ mkdirParents s cfg.outputRoot) _ ?_ ?_
  · intro w hw
    rcases List.mem_append.mp hw with hw | hw
    · simp [hw]
    · simp [hw]
  · intro w hw
    simp [hw]

/-- C4: resumption/idempotence. (1) In `batch_process_media`, a file whose
target path already exists is skipped with outcome `skippedExisting` and no
write, for EVERY environment — so no strategy selection, detection, or
output write can have occurred for it. (2) The same holds for
`batch_crop_videos`. (3) Re-running `batch_process_media` from the
filesystem state left by a first run performs no additional writes. -/
theorem c4_idempotent_resume :
    (∀ (env : Env) (cfg : BatchConfig) (s : List FPath) (f : MediaFile)
        (mt : MediaType), classify f.name.data = some mt →
        targetFile cfg f ∈ s →
        processFile env cfg s f = (Outcome.skippedExisting, [])) ∧
    (∀ (env : Env) (cfg : BatchConfig) (s : List FPath) (f : MediaFile),
        ((pySplitName f.name.data).2).map Char.toLower ∈ videoExtensions →
        targetFile cfg f ∈ s →
        processFileV env cfg s f = Except.ok (Outcome.skippedExisting, [])) ∧
    (∀ (env : Env) (cfg : BatchConfig) (s : List FPath) (files : List MediaFile),
        (batch_process_media env cfg
          (s ++ (batch_process_media env cfg s files).2) files).2 = []) := by
  refine ⟨?_, ?_, ?_⟩
  · intro env cfg s f mt hcl hmem
    unfold processFile
    rw [hcl]
    dsimp only
    rw [if_pos hmem]
  · intro env cfg s f hext hmem
    unfold processFileV
    rw [if_pos hext]
    dsimp only
    rw [if_pos hmem]
  · intro env cfg s files
    exact batch_rerun_no_writes env cfg s files

/-- Witness for C4 at concrete inputs: a video file whose `_noblack` target
pre-exists is skipped by both batch loops, and a concrete second run
writes nothing. -/
theorem c4_idempotent_resume_w :
    processFile envConst cfgEx [["out", "a", "b_noblack.mp4"]] ⟨["a"], "b.mp4"⟩ =
      (Outcome.skippedExisting, []) ∧
    processFileV envConst cfgEx [["out", "a", "b_noblack.mp4"]] ⟨["a"], "b.mp4"⟩ =
      Except.ok (Outcome.skippedExisting, []) ∧
    (batch_process_media envConst cfgEx
      ([] ++ (batch_process_media envConst cfgEx [] [⟨["a"], "b.mp4"⟩]).2)
      [⟨["a"], "b.mp4"⟩]).2 = [] :=
  ⟨c4_idempotent_resume.1 envConst cfgEx [["out", "a", "b_noblack.mp4"]]
      ⟨["a"], "b.mp4"⟩ MediaType.video (by decide) (by decide),
   c4_idempotent_resume.2.1 envConst cfgEx [["out", "a", "b_noblack.mp4"]]
      ⟨["a"], "b.mp4"⟩ (by decide) (by decide),
   c4_idempotent_resume.2.2 envConst cfgEx [] [⟨["a"], "b.mp4"⟩]⟩

/-! ### Fixtures for C1 -/

def filesTwoVideos : List MediaFile := [⟨[], "v1.mp4"⟩, ⟨[], "v2.mp4"⟩]

/-- A CLI invocation with no fatal setup error: right arity, existing and
parseable config, media path present, existing root holding two videos. -/
def inpOkTwo : CliInput :=
  { argvOk := true, configFileExists := true, configParses := true,
    mediaPathPresent := true, rootExists := true,
    rootFiles := filesTwoVideos, resultWriteOk := true }

/-- C1 counterexample: in `video_black_remove.py` a detection exception is
NOT caught at the per-file boundary. With a detector that raises on the
first of two videos, the whole batch aborts (the second file is never given
an outcome), overall success is false and the process exits 1 — refuting
"processing continues with the remaining files ... and the process exit
code is 0 whenever no fatal setup error occurred". -/
theorem c1_counterexample :
    batch_crop_videos envBoom cfgEx [] filesTwoVideos = Except.error "boom" ∧
    (mainModelV envBoom cfgEx inpOkTwo []).success = false ∧
    (mainModelV envBoom cfgEx inpOkTwo []).exitCode = 1 ∧
    (mainModelV envBoom cfgEx inpOkTwo []).errorField = some "boom" :=
  ⟨rfl, rfl, rfl, rfl⟩

/-- C1 as amended: failure isolation holds for `batch_process_media` of
`black_remove.py` (but not for `batch_crop_videos`, see the
counterexample). (1) A per-file detection exception is caught and recorded
as that file's `failed` outcome with no write, and the remaining files are
processed exactly as they would otherwise be. (2) Whenever no fatal setup
error occurs, every discovered file receives an outcome, overall success is
true — regardless of how many files failed — and the exit code is 0
(given the result document write succeeds). -/
theorem c1_per_file_isolation :
    (∀ (env : Env) (cfg : BatchConfig) (s : List FPath) (f : MediaFile)
        (fs : List MediaFile) (e : String),
        classify f.name.data = some MediaType.video →
        cfg.videoAlgorithm = "dynamic" →
        env.removeBlackDynamic (inputPath cfg f) = Except.error e →
        targetFile cfg f ∉ s →
        processFile env cfg s f = (Outcome.failed e, []) ∧
        batchGo env cfg s (f :: fs) =
          ((f, Outcome.failed e) :: (batchGo env cfg s fs).1,
            (batchGo env cfg s fs).2)) ∧
    (∀ (env : Env) (cfg : BatchConfig) (inp : CliInput) (s : List FPath),
        inp.argvOk = true → inp.configFileExists = true →
        inp.configParses = true → inp.mediaPathPresent = true →
        (mainModel env cfg inp s).success = true ∧
        (mainModel env cfg inp s).exitCode = (if inp.resultWriteOk then 0 else 1) ∧
        (mainModel env cfg inp s).outcomes.length =
          (if inp.rootExists then inp.rootFiles else []).length) := by
  constructor
  · intro env cfg s f fs e hcl halg hdet hmem
    have hpf : processFile env cfg s f = (Outcome.failed e, []) := by
      unfold processFile
      rw [hcl]
      dsimp only
      rw [if_neg hmem]
      unfold processVideo
      rw [halg]
      simp [get_remover, hdet]
    refine ⟨hpf, ?_⟩
    rw [batchGo_cons, hpf]
    simp
  · intro env cfg inp s ha hb hc hd
    have hrun : runUnified env cfg inp s =
        Except.ok (batch_process_media env cfg s
          (if inp.rootExists then inp.rootFiles else [])) := by
      unfold runUnified
      rw [ha, hb, hc, hd]
      simp
    unfold mainModel
    rw [hrun]
    cases hw : inp.resultWriteOk <;>
      simp [batch_process_media, batchGo_length]

/-- Witness for C1: with the all-raising detector, both files of a concrete
batch fail individually, yet the run reports success with exit code 0. -/
theorem c1_per_file_isolation_w :
    (processFile envBoom cfgEx [] ⟨[], "v1.mp4"⟩ = (Outcome.failed "boom", []) ∧
      batchGo envBoom cfgEx [] [⟨[], "v1.mp4"⟩, ⟨[], "v2.mp4"⟩] =
        ((⟨[], "v1.mp4"⟩, Outcome.failed "boom") ::
            (batchGo envBoom cfgEx [] [⟨[], "v2.mp4"⟩]).1,
          (batchGo envBoom cfgEx [] [⟨[], "v2.mp4"⟩]).2)) ∧
    (mainModel envBoom cfgEx inpOkTwo []).success = true ∧
    (mainModel envBoom cfgEx inpOkTwo []).exitCode =
      (if inpOkTwo.resultWriteOk then 0 else 1) ∧
    (mainModel envBoom cfgEx inpOkTwo []).outcomes.length =
      (if inpOkTwo.rootExists then inpOkTwo.rootFiles else []).length :=
  ⟨c1_per_file_isolation.1 envBoom cfgEx [] ⟨[], "v1.mp4"⟩ [⟨[], "v2.mp4"⟩]
      "boom" (by decide) rfl rfl (by decide),
    c1_per_file_isolation.2 envBoom cfgEx inpOkTwo [] rfl rfl rfl rfl⟩

/-- Helper: with no fatal setup error, `main` of `black_remove.py` reports
success (the batch itself cannot raise). -/
theorem mainModel_success_of_setup (env : Env) (cfg : BatchConfig)
    (inp : CliInput) (s : List FPath) (ha : inp.argvOk = true)
    (hb : inp.configFileExists = true) (hc : inp.configParses = true)
    (hd : inp.mediaPathPresent = true) :
    (mainModel env cfg inp s).success = true := by
  unfold mainModel runUnified
  rw [ha, hb, hc, hd]
  cases hw : inp.resultWriteOk <;> simp

/-! ### Fixtures for C3, C7, C8 -/

/-- Detector returns the degenerate rectangle (0,0,0,0); probes report a
1920×1080 native frame. -/
def envDegenerate : Env :=
  { envConst with
    removeBlackDynamic := fun _ => Except.ok ⟨0, 0, 0, 0⟩
    removeBlackStatic := fun _ _ => Except.ok ⟨0, 0, 0, 0⟩
    videoCaptureWidth := fun _ => 1920
    videoCaptureHeight := fun _ => 1080 }

/-- Detector finds real bars (640×360 content in a 1920×1080 frame) but the
external ffmpeg process exits non-zero. -/
def envFfmpegFail : Env :=
  { envConst with
    removeBlackDynamic := fun _ => Except.ok ⟨0, 0, 640, 360⟩
    videoCaptureWidth := fun _ => 1920
    videoCaptureHeight := fun _ => 1080
    ffmpeg := fun _ _ _ => FfmpegRun.nonzeroExit }

def cfgNoCrop : BatchConfig := { cfgEx with cropEnabled := false }

def cfgFoo : BatchConfig := { cfgEx with videoAlgorithm := "foo" }

/-- C3 counterexample: with cropping disabled, a video whose detected
rectangle is degenerate (0×0) against a 1920×1080 probe is treated like any
other file on the copy path: outcome `copied` and the target written — not
`failed` — refuting "regardless of whether cropping is enabled". -/
theorem c3_counterexample :
    (processFile envDegenerate cfgNoCrop [] ⟨[], "v.mp4"⟩).1 = Outcome.copied ∧
    ["out", "v_noblack.mp4"] ∈ (processFile envDegenerate cfgNoCrop [] ⟨[], "v.mp4"⟩).2 :=
  ⟨rfl, by decide⟩

/-- Detector returns a degenerate corner rectangle (x2 = x1) for images. -/
def envImgDegenerate : Env :=
  { envConst with imgDetect := fun _ => Except.ok ⟨5, 5, 5, 80⟩ }

/-- C3 as amended: when cropping is enabled and the degenerate rectangle
(normalized width ≤ 0 or height ≤ 0) differs from the independently probed
full frame, the file's outcome — for videos and for images alike — is
`failed` with no write and no crop attempt (the rectangle is rejected
before the crop tool is consulted). When cropping is disabled, however —
or, for videos, when the probe returns dimensions equal to the degenerate
rectangle's, e.g. a failed probe returning 0×0 — the file is copied
instead (see the counterexample). -/
theorem c3_degenerate_rect_failed :
    (∀ (env : Env) (cfg : BatchConfig) (s : List FPath) (f : MediaFile)
        (rect : Rect4),
        classify f.name.data = some MediaType.video →
        (cfg.videoAlgorithm = "dynamic" ∨ cfg.videoAlgorithm = "static") →
        (if cfg.videoAlgorithm = "static"
          then env.removeBlackStatic (inputPath cfg f) cfg.maxFrames
          else env.removeBlackDynamic (inputPath cfg f)) = Except.ok rect →
        rect.w ≤ 0 ∨ rect.h ≤ 0 →
        cfg.cropEnabled = true →
        ¬ (rect.w = env.videoCaptureWidth (inputPath cfg f) ∧
          rect.h = env.videoCaptureHeight (inputPath cfg f)) →
        targetFile cfg f ∉ s →
        processFile env cfg s f = (Outcome.failed "invalid crop parameters", [])) ∧
    (∀ (env : Env) (cfg : BatchConfig) (s : List FPath) (f : MediaFile)
        (rect : RectC) (dims : Int × Int),
        classify f.name.data = some MediaType.image →
        env.imgDetect (inputPath cfg f) = Except.ok rect →
        env.imreadDims (inputPath cfg f) = some dims →
        rect.x2 - rect.x1 ≤ 0 ∨ rect.y2 - rect.y1 ≤ 0 →
        cfg.cropEnabled = true →
        ¬ (rect.x1 = 0 ∧ rect.y1 = 0 ∧ rect.x2 = dims.2 ∧ rect.y2 = dims.1) →
        targetFile cfg f ∉ s →
        processFile env cfg s f = (Outcome.failed "invalid crop parameters", [])) := by
  constructor
  · intro env cfg s f rect hcl halg hdet hdg hce hne hmem
    have hgr : get_remover MediaType.video cfg.videoAlgorithm =
        Except.ok (if cfg.videoAlgorithm = "dynamic"
          then Remover.videoDynamic else Remover.videoStatic) := by
      rcases halg with h | h <;> simp [get_remover, h]
    unfold processFile
    rw [hcl]
    dsimp only
    rw [if_neg hmem]
    unfold processVideo
    rw [hgr]
    dsimp only
    rw [hdet]
    dsimp only
    rw [if_neg ?hbc]
    case hbc =>
      intro h
      rcases h with h | h
      · rw [hce] at h; cases h
      · exact hne h
    unfold crop_video
    rw [if_pos hdg]
  · intro env cfg s f rect dims hcl hdet hri hdg hce hne hmem
    unfold processFile
    rw [hcl]
    dsimp only
    rw [if_neg hmem]
    unfold processImage
    dsimp only [get_remover]
    rw [hdet]
    dsimp only
    rw [hri]
    dsimp only
    rw [if_neg ?hbc]
    case hbc =>
      intro h
      rcases h with h | h
      · rw [hce] at h; cases h
      · exact hne h
    unfold crop_image
    rw [if_pos hdg]

/-- Witness for C3: the degenerate environments with cropping enabled
produce `failed` outcomes and no writes, for a video and for an image. -/
theorem c3_degenerate_rect_failed_w :
    processFile envDegenerate cfgEx [] ⟨[], "v.mp4"⟩ =
      (Outcome.failed "invalid crop parameters", []) ∧
    processFile envImgDegenerate cfgEx [] ⟨[], "p.png"⟩ =
      (Outcome.failed "invalid crop parameters", []) :=
  ⟨c3_degenerate_rect_failed.1 envDegenerate cfgEx [] ⟨[], "v.mp4"⟩ ⟨0, 0, 0, 0⟩
      (by decide) (Or.inl rfl) rfl (Or.inl (by decide)) rfl (by decide) (by decide),
   c3_degenerate_rect_failed.2 envImgDegenerate cfgEx [] ⟨[], "p.png"⟩
      ⟨5, 5, 5, 80⟩ (100, 100)
      (by decide) rfl rfl (Or.inl (by decide)) rfl (by decide) (by decide)⟩

/-- C7: when the external ffmpeg process exits non-zero or is missing, that
video's outcome is a per-file `failed` with no write; the remaining files
are processed exactly as they would otherwise be, and overall success is
unaffected (still true whenever no fatal setup error occurred). -/
theorem c7_crop_tool_failure (env : Env) (cfg : BatchConfig)
    (s : List FPath) (f : MediaFile) (fs : List MediaFile) (rect : Rect4)
    (hcl : classify f.name.data = some MediaType.video)
    (halg : cfg.videoAlgorithm = "dynamic" ∨ cfg.videoAlgorithm = "static")
    (hdet : (if cfg.videoAlgorithm = "static"
        then env.removeBlackStatic (inputPath cfg f) cfg.maxFrames
        else env.removeBlackDynamic (inputPath cfg f)) = Except.ok rect)
    (hw : 0 < rect.w) (hh : 0 < rect.h)
    (hce : cfg.cropEnabled = true)
    (hne : ¬ (rect.w = env.videoCaptureWidth (inputPath cfg f) ∧
      rect.h = env.videoCaptureHeight (inputPath cfg f)))
    (hmem : targetFile cfg f ∉ s)
    (hff : env.ffmpeg (inputPath cfg f) (targetFile cfg f) rect ≠ FfmpegRun.success) :
    (∃ reason, processFile env cfg s f = (Outcome.failed reason, []) ∧
      batchGo env cfg s (f :: fs) =
        ((f, Outcome.failed reason) :: (batchGo env cfg s fs).1,
          (batchGo env cfg s fs).2)) ∧
    (∀ inp : CliInput, inp.argvOk = true → inp.configFileExists = true →
      inp.configParses = true → inp.mediaPathPresent = true →
      (mainModel env cfg inp s).success = true) := by
  constructor
  · have hgr : get_remover MediaType.video cfg.videoAlgorithm =
        Except.ok (if cfg.videoAlgorithm = "dynamic"
          then Remover.videoDynamic else Remover.videoStatic) := by
      rcases halg with h | h <;> simp [get_remover, h]
    have hpf : ∃ reason, processFile env cfg s f = (Outcome.failed reason, []) := by
      unfold processFile
      rw [hcl]
      dsimp only
      rw [if_neg hmem]
      unfold processVideo
      rw [hgr]
      dsimp only
      rw [hdet]
      dsimp only
      rw [if_neg ?hbc]
      case hbc =>
        intro h
        rcases h with h | h
        · rw [hce] at h; cases h
        · exact hne h
      unfold crop_video
      rw [if_neg ?hdg]
      case hdg =>
        intro h
        rcases h with h | h
        · omega
        · omega
      cases hffc : env.ffmpeg (inputPath cfg f) (targetFile cfg f) rect with
      | success => exact absurd hffc hff
      | nonzeroExit => exact ⟨"ffmpeg nonzero exit", rfl⟩
      | missingExe => exact ⟨"ffmpeg not found", rfl⟩
    obtain ⟨reason, hpf⟩ := hpf
    refine ⟨reason, hpf, ?_⟩
    rw [batchGo_cons, hpf]
    simp
  · intro inp ha hb hc hd
    exact mainModel_success_of_setup env cfg inp s ha hb hc hd

/-- Witness for C7: ffmpeg failing on a real-bars video yields a per-file
`failed` outcome, the sibling file is processed as usual, and the overall
run still succeeds. -/
theorem c7_crop_tool_failure_w :
    (∃ reason,
      processFile envFfmpegFail cfgEx [] ⟨[], "v1.mp4"⟩ = (Outcome.failed reason, []) ∧
      batchGo envFfmpegFail cfgEx [] [⟨[], "v1.mp4"⟩, ⟨[], "v2.mp4"⟩] =
        ((⟨[], "v1.mp4"⟩, Outcome.failed reason) ::
            (batchGo envFfmpegFail cfgEx [] [⟨[], "v2.mp4"⟩]).1,
          (batchGo envFfmpegFail cfgEx [] [⟨[], "v2.mp4"⟩]).2)) ∧
    (∀ inp : CliInput, inp.argvOk = true → inp.configFileExists = true →
      inp.configParses = true → inp.mediaPathPresent = true →
      (mainModel envFfmpegFail cfgEx inp []).success = true) :=
  c7_crop_tool_failure envFfmpegFail cfgEx [] ⟨[], "v1.mp4"⟩ [⟨[], "v2.mp4"⟩]
    ⟨0, 0, 640, 360⟩ (by decide) (Or.inl rfl) rfl (by decide) (by decide) rfl
    (by decide) (by decide) (by decide)

/-- C8 counterexample: with the invalid video algorithm "foo" configured, an
image file is still detected and processed normally (here: outcome `copied`,
its target written) — refuting "no file of any media kind is detected,
copied, or cropped under that configuration". -/
theorem c8_counterexample :
    (processFile envConst cfgFoo [] ⟨[], "p.png"⟩).1 = Outcome.copied ∧
    ["out", "p_noblack.png"] ∈ (processFile envConst cfgFoo [] ⟨[], "p.png"⟩).2 :=
  ⟨rfl, by decide⟩

/-- C8 as amended: if the configured video algorithm is not one of
{dynamic, static}, then (1) every video file fails at per-file strategy
selection — outcome `failed`, no detection for videos (the result is the
same for every environment), no copy, no crop, no write — but the check is
per-file rather than fail-fast before the batch; and (2) image files are
entirely unaffected by the algorithm string and are processed normally. -/
theorem c8_invalid_algorithm (env : Env) (cfg : BatchConfig)
    (s : List FPath) (f : MediaFile)
    (h1 : cfg.videoAlgorithm ≠ "dynamic") (h2 : cfg.videoAlgorithm ≠ "static")
    (hcl : classify f.name.data = some MediaType.video)
    (hmem : targetFile cfg f ∉ s) :
    (processFile env cfg s f =
      (Outcome.failed ("unsupported video algorithm: " ++ cfg.videoAlgorithm), [])) ∧
    (∀ (ir ro : FPath) (ce : Bool) (a a' : String) (mf : Nat) (g : MediaFile)
        (s' : List FPath), classify g.name.data = some MediaType.image →
        processFile env ⟨ir, ro, ce, a, mf⟩ s' g =
          processFile env ⟨ir, ro, ce, a', mf⟩ s' g) := by
  constructor
  · unfold processFile
    rw [hcl]
    dsimp only
    rw [if_neg hmem]
    unfold processVideo
    have hgr : get_remover MediaType.video cfg.videoAlgorithm =
        Except.error ("unsupported video algorithm: " ++ cfg.videoAlgorithm) := by
      simp [get_remover, h1, h2]
    rw [hgr]
  · intro ir ro ce a a' mf g s' hgl
    unfold processFile
    rw [hgl]
    dsimp only
    have htg : targetFile ⟨ir, ro, ce, a, mf⟩ g = targetFile ⟨ir, ro, ce, a', mf⟩ g := rfl
    rw [htg]
    by_cases hm : targetFile ⟨ir, ro, ce, a', mf⟩ g ∈ s'
    · rw [if_pos hm, if_pos hm]
    · rw [if_neg hm, if_neg hm]
      unfold processImage
      rfl

/-- Witness for C8: under algorithm "foo", a video file fails per-file with
the selection error, while an image file's processing is identical to its
processing under "dynamic". -/
theorem c8_invalid_algorithm_w :
    (processFile envConst cfgFoo [] ⟨[], "v.mp4"⟩ =
      (Outcome.failed ("unsupported video algorithm: " ++ cfgFoo.videoAlgorithm), [])) ∧
    (∀ (ir ro : FPath) (ce : Bool) (a a' : String) (mf : Nat) (g : MediaFile)
        (s' : List FPath), classify g.name.data = some MediaType.image →
        processFile envConst ⟨ir, ro, ce, a, mf⟩ s' g =
          processFile envConst ⟨ir, ro, ce, a', mf⟩ s' g) :=
  c8_invalid_algorithm envConst cfgFoo [] ⟨[], "v.mp4"⟩
    (by decide) (by decide) (by decide) (by decide)

/-- A setup-ok invocation whose configured media root does not exist. -/
def inpNoRoot : CliInput :=
  { argvOk := true, configFileExists := true, configParses := true,
    mediaPathPresent := true, rootExists := false,
    rootFiles := filesTwoVideos, resultWriteOk := true }

/-- C6 counterexample: when the configured input root directory does not
exist (but the config file itself exists and parses), the run is NOT
fatal: `rglob` yields nothing, so the batch completes vacuously with
`success = true`, exit code 0, no error recorded and no outcomes —
refuting "error field is set, success is false, and the process exits
non-zero". -/
theorem c6_counterexample :
    (mainModel envConst cfgEx inpNoRoot []).success = true ∧
    (mainModel envConst cfgEx inpNoRoot []).exitCode = 0 ∧
    (mainModel envConst cfgEx inpNoRoot []).errorField = none ∧
    (mainModel envConst cfgEx inpNoRoot []).outcomes = [] :=
  ⟨rfl, rfl, rfl, rfl⟩

/-- C6 as amended: the existence check in `main` guards the input CONFIG
file, not the media root. (1) If the config file does not exist, the run is
fatal: error field set, success false, exit 1, no file processed, nothing
written. (2) If instead only the media root is missing, the run succeeds
vacuously: success true, no outcomes, and the only writes are the creation
of the output root directory. -/
theorem c6_fatal_setup (env : Env) (cfg : BatchConfig) (inp : CliInput)
    (s : List FPath) :
    (inp.argvOk = true → inp.configFileExists = false →
      (mainModel env cfg inp s).success = false ∧
      (mainModel env cfg inp s).errorField = some "input file does not exist" ∧
      (mainModel env cfg inp s).exitCode = 1 ∧
      (mainModel env cfg inp s).outcomes = [] ∧
      (mainModel env cfg inp s).writes = []) ∧
    (inp.argvOk = true → inp.configFileExists = true → inp.configParses = true →
      inp.mediaPathPresent = true → inp.rootExists = false →
      (mainModel env cfg inp s).success = true ∧
      (mainModel env cfg inp s).outcomes = [] ∧
      (mainModel env cfg inp s).writes = mkdirParents s cfg.outputRoot) := by
  constructor
  · intro ha hb
    unfold mainModel runUnified
    rw [ha, hb]
    cases hw : inp.resultWriteOk <;> simp
  · intro ha hb hc hd he
    unfold mainModel runUnified
    rw [ha, hb, hc, hd, he]
    cases hw : inp.resultWriteOk <;>
      simp [batch_process_media, batchGo_nil]

/-- Witness for C6: a concrete missing-config-file run is fatal, and a
concrete missing-root run succeeds vacuously, creating only `out`. -/
theorem c6_fatal_setup_w :
    ((mainModel envConst cfgEx
        { inpNoRoot with configFileExists := false } []).success = false ∧
      (mainModel envConst cfgEx
        { inpNoRoot with configFileExists := false } []).errorField =
          some "input file does not exist" ∧
      (mainModel envConst cfgEx
        { inpNoRoot with configFileExists := false } []).exitCode = 1 ∧
      (mainModel envConst cfgEx
        { inpNoRoot with configFileExists := false } []).outcomes = [] ∧
      (mainModel envConst cfgEx
        { inpNoRoot with configFileExists := false } []).writes = []) ∧
    ((mainModel envConst cfgEx inpNoRoot []).success = true ∧
      (mainModel envConst cfgEx inpNoRoot []).outcomes = [] ∧
      (mainModel envConst cfgEx inpNoRoot []).writes =
        mkdirParents [] cfgEx.outputRoot) :=
  ⟨(c6_fatal_setup envConst cfgEx
      { inpNoRoot with configFileExists := false } []).1 rfl rfl,
   (c6_fatal_setup envConst cfgEx inpNoRoot []).2 rfl rfl rfl rfl rfl⟩

/-- A full-frame 1920×1080 video: detector returns (0,0,1920,1080), probes
report 1920×1080, `stat().st_size` is 999999 bytes. -/
def envC2 : Env :=
  { envConst with
    removeBlackDynamic := fun _ => Except.ok ⟨0, 0, 1920, 1080⟩
    videoCaptureWidth := fun _ => 1920
    videoCaptureHeight := fun _ => 1080 }

/-- C2: `batch_crop_videos` (video_black_remove.py:74) compares the detected
rectangle's width and height against `input_path.stat().st_size` — the file
size in bytes — instead of the probed native frame dimensions. On a
full-frame 1920×1080 video of 999999 bytes it therefore CROPS (1920 ≠
999999), writing a re-encoded copy, whereas the dimension comparison of
`batch_process_media` (black_remove.py:139-141) on the very same
environment recognizes "no bars" and takes the copy path. -/
theorem c2_size_comparison_bug :
    processFileV envC2 cfgEx [] ⟨[], "v.mp4"⟩ =
      Except.ok (Outcome.cropped, [["out"], ["out", "v_noblack.mp4"]]) ∧
    processFile envC2 cfgEx [] ⟨[], "v.mp4"⟩ =
      (Outcome.copied, [["out"], ["out", "v_noblack.mp4"]]) :=
  ⟨rfl, rfl⟩

/-! ### Prefix confinement of writes (C10) -/

theorem take_isUnder (l : FPath) (n : Nat) : isUnder (l.take n) l := by
  unfold isUnder
  rw [List.length_take]
  by_cases h : n ≤ l.length
  · rw [Nat.min_eq_left h]
  · have hlen : l.length ≤ n := Nat.le_of_not_le h
    rw [Nat.min_eq_right hlen, List.take_length, List.take_of_length_le hlen]

theorem pathAncestors_cases {a b q : FPath} (h : q ∈ pathAncestors (a ++ b)) :
    isUnder a q ∨ isUnder q a := by
  unfold pathAncestors at h
  obtain ⟨i, _, rfl⟩ := List.mem_map.mp h
  by_cases hle : i + 1 ≤ a.length
  · right
    rw [List.take_append_of_le_length hle]
    exact take_isUnder a (i + 1)
  · left
    unfold isUnder
    rw [List.take_take]
    have : min a.length (i + 1) = a.length := by omega
    rw [this, List.take_left]

theorem targetFile_under (cfg : BatchConfig) (f : MediaFile) :
    isUnder cfg.outputRoot (targetFile cfg f) := by
  unfold isUnder
  rw [targetFile_eq, List.append_assoc, List.take_left]

theorem targetFile_dropLast (cfg : BatchConfig) (f : MediaFile) :
    (targetFile cfg f).dropLast = cfg.outputRoot ++ f.relDirs := by
  rw [targetFile_eq, List.dropLast_concat]

theorem mkdirParents_under {s : List FPath} {a b q : FPath}
    (h : q ∈ mkdirParents s (a ++ b)) : isUnder a q ∨ isUnder q a :=
  pathAncestors_cases (mkdirParents_mem_ancestors h)

theorem copyStep_writes_under {env : Env} {cfg : BatchConfig} {s : List FPath}
    {inp w : FPath} {f : MediaFile}
    (hw : w ∈ (copyStep env s inp (targetFile cfg f)).2) :
    isUnder cfg.outputRoot w ∨ isUnder w cfg.outputRoot := by
  unfold copyStep at hw
  cases hc : env.copy2 inp (targetFile cfg f) with
  | ok u =>
    rw [hc] at hw
    simp only [List.mem_append, List.mem_singleton] at hw
    rcases hw with hw | hw
    · rw [targetFile_dropLast] at hw
      exact mkdirParents_under hw
    · exact Or.inl (hw ▸ targetFile_under cfg f)
  | error e =>
    rw [hc] at hw
    rw [targetFile_dropLast] at hw
    exact mkdirParents_under hw

theorem processVideo_writes_under {env : Env} {cfg : BatchConfig}
    {s : List FPath} {inp w : FPath} {f : MediaFile}
    (hw : w ∈ (processVideo env cfg s inp (targetFile cfg f)).2) :
    isUnder cfg.outputRoot w ∨ isUnder w cfg.outputRoot := by
  unfold processVideo at hw
  cases hgr : get_remover MediaType.video cfg.videoAlgorithm with
  | error e => rw [hgr] at hw; simp at hw
  | ok r =>
    rw [hgr] at hw
    dsimp only at hw
    cases hre : (if cfg.videoAlgorithm = "static"
        then env.removeBlackStatic inp cfg.maxFrames
        else env.removeBlackDynamic inp) with
    | error e => rw [hre] at hw; simp at hw
    | ok rect =>
      rw [hre] at hw
      dsimp only at hw
      by_cases hbc : cfg.cropEnabled = false ∨
          (rect.w = env.videoCaptureWidth inp ∧ rect.h = env.videoCaptureHeight inp)
      · rw [if_pos hbc] at hw
        exact copyStep_writes_under hw
      · rw [if_neg hbc] at hw
        unfold crop_video at hw
        by_cases hdg : rect.w ≤ 0 ∨ rect.h ≤ 0
        · rw [if_pos hdg] at hw; simp at hw
        · rw [if_neg hdg] at hw
          cases hff : env.ffmpeg inp (targetFile cfg f) rect with
          | success =>
            rw [hff] at hw
            simp only [List.mem_singleton] at hw
            exact Or.inl (hw ▸ targetFile_under cfg f)
          | nonzeroExit => rw [hff] at hw; simp at hw
          | missingExe => rw [hff] at hw; simp at hw

theorem processImage_writes_under {env : Env} {cfg : BatchConfig}
    {s : List FPath} {inp w : FPath} {f : MediaFile}
    (hw : w ∈ (processImage env cfg s inp (targetFile cfg f)).2) :
    isUnder cfg.outputRoot w ∨ isUnder w cfg.outputRoot := by
  unfold processImage at hw
  dsimp only [get_remover] at hw
  cases hd : env.imgDetect inp with
  | error e => rw [hd] at hw; simp at hw
  | ok rect =>
    rw [hd] at hw
    dsimp only at hw
    cases hri : env.imreadDims inp with
    | none => rw [hri] at hw; simp at hw
    | some dims =>
      rw [hri] at hw
      dsimp only at hw
      by_cases hbc : cfg.cropEnabled = false ∨
          (rect.x1 = 0 ∧ rect.y1 = 0 ∧ rect.x2 = dims.2 ∧ rect.y2 = dims.1)
      · rw [if_pos hbc] at hw
        exact copyStep_writes_under hw
      · rw [if_neg hbc] at hw
        unfold crop_image at hw
        by_cases hdg : rect.x2 - rect.x1 ≤ 0 ∨ rect.y2 - rect.y1 ≤ 0
        · rw [if_pos hdg] at hw; simp at hw
        · rw [if_neg hdg] at hw
          rw [hri] at hw
          dsimp only at hw
          simp only [List.mem_append, List.mem_singleton] at hw
          rcases hw with hw | hw
          · rw [targetFile_dropLast] at hw
            exact mkdirParents_under hw
          · exact Or.inl (hw ▸ targetFile_under cfg f)

theorem processFile_writes_under {env : Env} {cfg : BatchConfig}
    {s : List FPath} {f : MediaFile} {w : FPath}
    (hw : w ∈ (processFile env cfg s f).2) :
    isUnder cfg.outputRoot w ∨ isUnder w cfg.outputRoot := by
  unfold processFile at hw
  cases hcl : classify f.name.data with
  | none => rw [hcl] at hw; simp at hw
  | some mt =>
    rw [hcl] at hw
    dsimp only at hw
    by_cases hmem : targetFile cfg f ∈ s
    · rw [if_pos hmem] at hw; simp at hw
    · rw [if_neg hmem] at hw
      cases mt with
      | video => exact processVideo_writes_under hw
      | image => exact processImage_writes_under hw

theorem mkdirParents_root_under {s : List FPath} {root q : FPath}
    (h : q ∈ mkdirParents s root) : isUnder root q ∨ isUnder q root := by
  have h2 : q ∈ mkdirParents s (root ++ []) := by rwa [List.append_nil]
  exact mkdirParents_under h2

theorem batchGo_writes_under (env : Env) (cfg : BatchConfig) :
    ∀ (files : List MediaFile) (s : List FPath) (w : FPath),
      w ∈ (batchGo env cfg s files).2 →
      isUnder cfg.outputRoot w ∨ isUnder w cfg.outputRoot := by
  intro files
  induction files with
  | nil => intro s w hw; simp [batchGo_nil] at hw
  | cons f fs ih =>
    intro s w hw
    rw [batchGo_cons] at hw
    rcases List.mem_append.mp hw with hw | hw
    · exact processFile_writes_under hw
    · exact ih _ w hw

theorem processFileV_writes {env : Env} {cfg : BatchConfig} {s : List FPath}
    {f : MediaFile} {r : Outcome × List FPath} {w : FPath}
    (hok : processFileV env cfg s f = Except.ok r) (hw : w ∈ r.2) :
    (isUnder cfg.outputRoot w ∨ isUnder w cfg.outputRoot) ∧ w ∉ s := by
  unfold processFileV at hok
  by_cases hext : ((pySplitName f.name.data).2).map Char.toLower ∈ videoExtensions
  · rw [if_pos hext] at hok
    dsimp only at hok
    by_cases hmem : targetFile cfg f ∈ s
    · rw [if_pos hmem] at hok
      injection hok with h
      rw [← h] at hw
      simp at hw
    · rw [if_neg hmem] at hok
      cases hdet : env.removeBlackDynamic (inputPath cfg f) with
      | error e => rw [hdet] at hok; simp at hok
      | ok rect =>
        rw [hdet] at hok
        dsimp only at hok
        by_cases hdg : rect.w ≤ 0 ∨ rect.h ≤ 0
        · rw [if_pos hdg] at hok
          injection hok with h
          rw [← h] at hw
          simp at hw
        · rw [if_neg hdg] at hok
          by_cases hsz : rect.w = env.statSize (inputPath cfg f) ∧
              rect.h = env.statSize (inputPath cfg f)
          · rw [if_pos hsz] at hok
            cases hcp : env.copy2 (inputPath cfg f) (targetFile cfg f) with
            | ok u =>
              rw [hcp] at hok
              injection hok with h
              rw [← h] at hw
              rw [targetFile_dropLast] at hw
              rcases List.mem_append.mp hw with hw | hw
              · exact ⟨mkdirParents_under hw, mkdirParents_not_mem hw⟩
              · rw [List.mem_singleton] at hw
                exact ⟨Or.inl (hw ▸ targetFile_under cfg f), hw ▸ hmem⟩
            | error e => rw [hcp] at hok; simp at hok
          · rw [if_neg hsz] at hok
            unfold crop_videoV at hok
            cases hff : env.ffmpeg (inputPath cfg f) (targetFile cfg f) rect with
            | success =>
              rw [hff] at hok
              injection hok with h
              rw [← h] at hw
              rw [targetFile_dropLast] at hw
              rcases List.mem_append.mp hw with hw | hw
              · exact ⟨mkdirParents_under hw, mkdirParents_not_mem hw⟩
              · rw [List.mem_singleton] at hw
                exact ⟨Or.inl (hw ▸ targetFile_under cfg f), hw ▸ hmem⟩
            | nonzeroExit =>
              rw [hff] at hok
              injection hok with h
              rw [← h] at hw
              rw [targetFile_dropLast, List.append_nil] at hw
              exact ⟨mkdirParents_under hw, mkdirParents_not_mem hw⟩
            | missingExe =>
              rw [hff] at hok
              injection hok with h
              rw [← h] at hw
              rw [targetFile_dropLast, List.append_nil] at hw
              exact ⟨mkdirParents_under hw, mkdirParents_not_mem hw⟩
  · rw [if_neg hext] at hok
    injection hok with h
    rw [← h] at hw
    simp at hw

theorem batchCropGo_cons (env : Env) (cfg : BatchConfig) (s : List FPath)
    (f : MediaFile) (fs : List MediaFile) :
    batchCropGo env cfg s (f :: fs) =
      (match processFileV env cfg s f with
      | Except.error e => Except.error e
      | Except.ok r =>
        match batchCropGo env cfg (s ++ r.2) fs with
        | Except.error e => Except.error e
        | Except.ok rest => Except.ok ((f, r.1) :: rest.1, r.2 ++ rest.2)) := rfl

theorem batchCropGo_writes (env : Env) (cfg : BatchConfig) :
    ∀ (files : List MediaFile) (s : List FPath)
      (res : List (MediaFile × Outcome) × List FPath) (w : FPath),
      batchCropGo env cfg s files = Except.ok res → w ∈ res.2 →
      (isUnder cfg.outputRoot w ∨ isUnder w cfg.outputRoot) ∧ w ∉ s := by
  intro files
  induction files with
  | nil =>
    intro s res w hok hw
    injection hok with h
    rw [← h] at hw
    simp at hw
  | cons f fs ih =>
    intro s res w hok hw
    rw [batchCropGo_cons] at hok
    cases hr : processFileV env cfg s f with
    | error e => rw [hr] at hok; simp at hok
    | ok rr =>
      rw [hr] at hok
      dsimp only at hok
      cases hrest : batchCropGo env cfg (s ++ rr.2) fs with
      | error e => rw [hrest] at hok; simp at hok
      | ok rest =>
        rw [hrest] at hok
        injection hok with h
        rw [← h] at hw
        rcases List.mem_append.mp hw with hw | hw
        · exact processFileV_writes hr hw
        · have hres := ih (s ++ rr.2) rest w hrest hw
          refine ⟨hres.1, fun hws => hres.2 ?_⟩
          exact List.mem_append.mpr (Or.inl hws)

def cfgNested : BatchConfig :=
  { inputRoot := ["in"], outputRoot := ["in", "out"], cropEnabled := true,
    videoAlgorithm := "dynamic", maxFrames := 500 }

/-- C10 counterexample: nothing stops the output root from being configured
INSIDE the input root. With `inputRoot = in` and `outputRoot = in/out`, a
batch run writes `in/out/v_noblack.mp4` — a path strictly under the input
root — refuting "no operation of a batch run ever writes ... any file under
the input root". -/
theorem c10_counterexample :
    isUnder ["in"] ["in", "out", "v_noblack.mp4"] ∧
    ["in", "out", "v_noblack.mp4"] ∈
      (batch_process_media envConst cfgNested [] [⟨[], "v.mp4"⟩]).2 :=
  ⟨by decide, by decide⟩

/-- C10 as amended: every write of a batch run (directory creation, copy
target, cropped output) is the output root, one of the output root's
ancestor directories, or a path under the output root; and every write is
to a path that did not previously exist, so pre-existing files — in
particular the entire source tree — are never modified or deleted. (The
original claim's "never under the input root" fails exactly when the output
root is configured inside the input root; see the counterexample.) This
holds for both `batch_process_media` and `batch_crop_videos`. -/
theorem c10_writes_confined :
    (∀ (env : Env) (cfg : BatchConfig) (s : List FPath)
        (files : List MediaFile) (w : FPath),
        w ∈ (batch_process_media env cfg s files).2 →
        (isUnder cfg.outputRoot w ∨ isUnder w cfg.outputRoot) ∧ w ∉ s) ∧
    (∀ (env : Env) (cfg : BatchConfig) (s : List FPath)
        (files : List MediaFile)
        (res : List (MediaFile × Outcome) × List FPath) (w : FPath),
        batch_crop_videos env cfg s files = Except.ok res → w ∈ res.2 →
        (isUnder cfg.outputRoot w ∨ isUnder w cfg.outputRoot) ∧ w ∉ s) := by
  constructor
  · intro env cfg s files w hw
    unfold batch_process_media at hw
    dsimp only at hw
    rcases List.mem_append.mp hw with hw | hw
    · exact ⟨mkdirParents_root_under hw, mkdirParents_not_mem hw⟩
    · refine ⟨batchGo_writes_under env cfg files _ w hw, fun hws => ?_⟩
      exact batchGo_writes_not_mem env cfg files _ w hw
        (List.mem_append.mpr (Or.inl hws))
  · intro env cfg s files res w hok hw
    unfold batch_crop_videos at hok
    dsimp only at hok
    cases hgo : batchCropGo env cfg (s ++ mkdirParents s cfg.outputRoot) files with
    | error e => rw [hgo] at hok; simp at hok
    | ok r =>
      rw [hgo] at hok
      injection hok with h
      rw [← h] at hw
      rcases List.mem_append.mp hw with hw | hw
      · exact ⟨mkdirParents_root_under hw, mkdirParents_not_mem hw⟩
      · have hres := batchCropGo_writes env cfg files _ r w hgo hw
        refine ⟨hres.1, fun hws => hres.2 ?_⟩
        exact List.mem_append.mpr (Or.inl hws)

/-- Witness for C10: in a concrete run every write lies at or under `out`
(or is an ancestor of it) and none pre-existed. -/
theorem c10_writes_confined_w :
    ((isUnder cfgEx.outputRoot ["out", "v1_noblack.mp4"] ∨
        isUnder ["out", "v1_noblack.mp4"] cfgEx.outputRoot) ∧
      ["out", "v1_noblack.mp4"] ∉ ([] : List FPath)) ∧
    ((isUnder cfgEx.outputRoot ["out"] ∨ isUnder ["out"] cfgEx.outputRoot) ∧
      ["out"] ∉ ([] : List FPath)) :=
  ⟨c10_writes_confined.1 envConst cfgEx [] filesTwoVideos
      ["out", "v1_noblack.mp4"] (by decide),
   c10_writes_confined.2 envConst cfgEx [] filesTwoVideos
      ((batch_crop_videos envConst cfgEx [] filesTwoVideos).toOption.getD ([], []))
      ["out"] rfl (by decide)⟩
